import Mathlib

/-!
Verification of the serialization/reference model of
`aind_behavior_mouse_university.base` (file `base/__init__.py`).

The development shallowly embeds the pydantic models and their field
serializers/validators as Lean structures and executable functions:

* Python strings used as qualified rule names are embedded as `List Char`
  (`PyStr`) so that `str.rsplit(".", 1)` can be reasoned about directly.
* Python callables (functions produced by `def` or `lambda`) always carry
  `__module__` and `__name__` attributes; they are embedded as `PyCallable`
  with those two fields plus the predicate behavior `Metrics -> bool`.
* Exceptions raised by the Python code are embedded as the `PyError` sum and
  fallible operations return `Except PyError _`.
* Pydantic's `model_dump` documents are embedded as `...Doc` structures;
  `model_validate` on such a document is the corresponding `deserialize...`
  function. In pydantic v2, `model_validate` does not invoke a custom
  `__init__`, so the list-to-dict conversion in `Curriculum.__init__` applies
  only to direct construction (`curriculumFromList` below).
-/

/-- Python strings, as character lists, for the qualified-name manipulation
done by `Rule`. -/
abbrev PyStr := List Char

/-- Exceptions that the embedded code can raise, named after the Python
exceptions actually raised by `base/__init__.py`:
`valueError` is the `ValueError` in `Rule._deserialize_callable`'s
`len(split) == 0` branch; `typeErrorUnhashableList` is the `TypeError`
raised by `globals()[split]` (indexing a dict with a `list`);
`moduleNotFoundError` is raised by `import_module` on a missing module;
`attributeError` by `getattr` on a missing symbol;
`attributeErrorNoneMetrics` by `None.model_dump_json()` in
`Stage._metrics_as_reference`; `indexError` by `list.pop`. -/
inductive PyError where
  | valueError
  | typeErrorUnhashableList
  | moduleNotFoundError
  | attributeError
  | attributeErrorNoneMetrics
  | indexError
  deriving DecidableEq

/-- The metrics payload seen by rule predicates: the base `Metrics` model has
`name` and `description`; concrete subtypes add opaque domain fields, embedded
as an association list (pydantic `extra="ignore"` drops them when the payload
is revalidated through the base class). -/
structure MetricsVal where
  name : String
  description : String
  extra : List (String × String)
  deriving DecidableEq

/-- A Python function value: `__module__`, `__name__`, and its behavior as a
predicate over metrics. Functions created by `def` and by `lambda` both carry
`__module__` and `__name__` (a lambda's `__name__` is `"<lambda>"`). -/
structure PyCallable where
  module : PyStr
  name : PyStr
  behavior : MetricsVal → Bool

/-- A loaded Python module: a partial map from attribute names to callables,
as read by `getattr`. -/
structure PyModule where
  attrs : PyStr → Option PyCallable

/-- The process-wide import environment consulted by `import_module`. -/
def RuleEnv := PyStr → Option PyModule

/-- The argument type of `Rule._deserialize_callable` / `_serialize_callable`:
`str | Callable`. -/
inductive StrOrCallable where
  | str (s : PyStr)
  | callable (c : PyCallable)

/-- Helper for `rsplitDot1`: scan a (reversed) character list for its first
`'.'`, returning the characters before it and the remainder. `none` when the
list has no `'.'`. -/
def breakRev : List Char → Option (List Char × List Char)
  | [] => none
  | c :: rest =>
    if c = '.' then some ([], rest)
    else
      match breakRev rest with
      | none => none
      | some (pre, post) => some (c :: pre, post)

/-- Embedding of Python `value.rsplit(".", 1)`: split at the last `'.'`,
yielding `[before, after]`, or `[value]` when there is no `'.'`.
(The result is never the empty list.) -/
def rsplitDot1 (s : PyStr) : List PyStr :=
  match breakRev s.reverse with
  | none => [s]
  | some (nameRev, modRev) => [modRev.reverse, nameRev.reverse]

/-- Embedding of `Rule._deserialize_callable`. A callable passes through
unchanged. A string is `rsplit(".", 1)`:
* `len(split) == 0` raises `ValueError` (dead branch: `rsplit` never returns
  an empty list);
* `len(split) == 1` executes `globals()[split]`, which raises
  `TypeError: unhashable type: list`, because `split` (the list itself, not
  `split[0]`) is used as the dict key;
* otherwise `import_module(split[0])` (raising `ModuleNotFoundError` when the
  module is absent) and `getattr(module, split[1])` (raising `AttributeError`
  when the symbol is absent). -/
def deserializeCallable (env : RuleEnv) : StrOrCallable → Except PyError PyCallable
  | .callable c => .ok c
  | .str v =>
    match rsplitDot1 v with
    | [] => .error .valueError
    | [_single] => .error .typeErrorUnhashableList
    | first :: second :: _rest =>
      match env first with
      | none => .error .moduleNotFoundError
      | some m =>
        match m.attrs second with
        | none => .error .attributeError
        | some c => .ok c

/-- The qualified symbolic name emitted for a callable:
`value.__module__ + "." + value.__name__`. -/
def ruleSymbolicName (c : PyCallable) : PyStr :=
  c.module ++ '.' :: c.name

/-- Embedding of `Rule._serialize_callable`: a string argument is first
re-resolved through `_deserialize_callable`; then the qualified name
`value.__module__ + "." + value.__name__` is returned. -/
def serializeCallable (env : RuleEnv) : StrOrCallable → Except PyError PyStr
  | .str s =>
    match deserializeCallable env (.str s) with
    | .error e => .error e
    | .ok c => .ok (ruleSymbolicName c)
  | .callable c => .ok (ruleSymbolicName c)

/-- A callable importable under its own qualified name: its module is loaded
and exposes the callable under its `__name__`, and the `__name__` contains no
dot (true of every top-level `def`). -/
def Resolvable (env : RuleEnv) (c : PyCallable) : Prop :=
  ('.' ∉ c.name) ∧ ∃ m, env c.module = some m ∧ m.attrs c.name = some c

/-! ## Data model

The pydantic models of `base/__init__.py`, embedded with their serializable
state. Base-class identity fields are kept explicitly; the domain fields that
concrete `Task`/`Metrics` subtypes add are embedded as the opaque `extra`
association list (the core treats them as an opaque payload). -/

/-- The `Task` model: `name`, `description`, `version` (a semver rendered as a
string), plus the domain fields of a concrete subtype. -/
structure TaskVal where
  name : String
  description : String
  version : String
  extra : List (String × String)
  deriving DecidableEq

/-- `Task.model_validate_json(task.model_dump_json())` as performed by
`Stage._task_as_reference`: revalidating any task payload through the base
`Task` class, whose `extra="ignore"` configuration drops all fields that are
not declared on the base class. -/
def taskAsReference (t : TaskVal) : TaskVal :=
  { name := t.name, description := t.description, version := t.version, extra := [] }

/-- `Metrics.model_validate_json(metrics.model_dump_json())` as performed by
`Stage._metrics_as_reference` on a non-`None` metrics value: revalidation
through the base `Metrics` class drops subtype domain fields. -/
def metricsAsReference (m : MetricsVal) : MetricsVal :=
  { name := m.name, description := m.description, extra := [] }

/-- The serializable projection of a `StageReference`: its `task`,
`stage_transitions` and `metrics` fields are declared with `exclude=True`, so
only `name` and `description` ever reach a document. `TransitionRule.__init__`
converts a `Stage` target into such a reference
(`StageReference.model_validate(stage.model_dump())`), and the excluded fields
are unobservable in every dump, so the stored target is embedded by this
projection. -/
structure StageRefVal where
  name : String
  description : String
  deriving DecidableEq

/-- The `TransitionRule` model after pydantic validation: the target is held
as a `StageReference` (see `StageRefVal`), and the `callable` field is a live
callable (the `Rule` schema converts a string input with
`_deserialize_callable` at validation time). -/
structure TransitionRuleVal where
  target_stage : StageRefVal
  callable : PyCallable
  description : String

/-- The `Stage` model: `name`, a required `task`, the ordered
`stage_transitions` list, an optional `metrics` (default `None`), and a
`description`. -/
structure StageVal where
  name : String
  task : TaskVal
  stage_transitions : List TransitionRuleVal
  metrics : Option MetricsVal
  description : String

/-- The `Curriculum` model: `name`, `description`, and the `stages` mapping.
A Python `dict[str, Stage]` is embedded as an association list in insertion
order with the dict's key-uniqueness maintained by the insertion operation. -/
structure CurriculumVal where
  name : String
  description : String
  stages : List (String × StageVal)

/-- `append_transition`: `self.stage_transitions.append(transition)`. -/
def appendTransition (s : StageVal) (t : TransitionRuleVal) : StageVal :=
  { s with stage_transitions := s.stage_transitions ++ [t] }

/-- Python `list.pop(index)` semantics: a negative index is first shifted by
the length; an index then outside `[0, len)` raises `IndexError`; otherwise
the element at the index is removed and returned. -/
def pyPop {α : Type} (l : List α) (i : Int) : Except PyError (α × List α) :=
  let j : Int := if i < 0 then i + l.length else i
  if h : 0 ≤ j ∧ j < (l.length : Int) then
    .ok (l.get ⟨j.toNat, by omega⟩, l.take j.toNat ++ l.drop (j.toNat + 1))
  else
    .error .indexError

/-- `pop_transition`: `return self.stage_transitions.pop(index)`; the stage
keeps the remaining transitions. -/
def popTransition (s : StageVal) (i : Int) :
    Except PyError (TransitionRuleVal × StageVal) :=
  match pyPop s.stage_transitions i with
  | .ok (t, rest) => .ok (t, { s with stage_transitions := rest })
  | .error e => .error e

/-- Python dict insertion `d[k] = v`: an existing key keeps its position and
has its value replaced; a new key is appended. -/
def dictUpd {α : Type} (m : List (String × α)) (k : String) (v : α) :
    List (String × α) :=
  if m.any (fun p => p.1 == k) then
    m.map (fun p => if p.1 == k then (k, v) else p)
  else
    m ++ [(k, v)]

/-- The dict comprehension `{stage.name: stage for stage in stages}` in
`Curriculum.__init__`. -/
def stagesDict (l : List StageVal) : List (String × StageVal) :=
  l.foldl (fun m s => dictUpd m s.name s) []

/-- Python `d[k]` lookup on the association-list embedding of a dict. -/
def lookupKey {α : Type} (m : List (String × α)) (k : String) : Option α :=
  (m.find? (fun p => p.1 == k)).map (fun p => p.2)

/-- `Curriculum(name=..., description=..., stages=[...])`: the custom
`__init__` turns a stage list into the name-keyed dict before validation. -/
def curriculumFromList (nm ds : String) (l : List StageVal) : CurriculumVal :=
  { name := nm, description := ds, stages := stagesDict l }

/-! ## Documents

`model_dump` output, with the field serializers of `base/__init__.py`
applied. -/

/-- A dumped `TransitionRule`: `_stage_as_reference` writes the target as a
`StageReference` dump (`name`/`description` only, the other fields being
`exclude=True`), and the `Rule` schema serializes the callable to its
qualified name string. -/
structure TransitionDoc where
  target_stage : StageRefVal
  callable : PyStr
  description : String
  deriving DecidableEq

/-- A dumped `Stage`: `task` and `metrics` after revalidation through the base
classes, transitions dumped in order. -/
structure StageDoc where
  name : String
  task : TaskVal
  stage_transitions : List TransitionDoc
  metrics : Option MetricsVal
  description : String
  deriving DecidableEq

/-- A dumped `Curriculum`: the `stages` dict dumped as name-keyed entries. -/
structure CurriculumDoc where
  name : String
  description : String
  stages : List (String × StageDoc)
  deriving DecidableEq

/-- Dump one transition: target as its reference projection, callable as
`__module__ + "." + __name__` (a live callable never takes
`_serialize_callable`'s string branch). -/
def serializeTransition (t : TransitionRuleVal) : TransitionDoc :=
  { target_stage := t.target_stage
    callable := ruleSymbolicName t.callable
    description := t.description }

/-- Dump one stage. `_metrics_as_reference` evaluates
`metrics.model_dump_json()` unconditionally, so a `None` metrics raises
`AttributeError` instead of producing a document. -/
def serializeStage (s : StageVal) : Except PyError StageDoc :=
  match s.metrics with
  | none => .error .attributeErrorNoneMetrics
  | some m =>
    .ok
      { name := s.name
        task := taskAsReference s.task
        stage_transitions := s.stage_transitions.map serializeTransition
        metrics := some (metricsAsReference m)
        description := s.description }

/-- Dump the entries of the stages dict in order. -/
def serializeStages : List (String × StageVal) → Except PyError (List (String × StageDoc))
  | [] => .ok []
  | (k, s) :: rest =>
    match serializeStage s with
    | .error e => .error e
    | .ok d =>
      match serializeStages rest with
      | .error e => .error e
      | .ok ds => .ok ((k, d) :: ds)

/-- `Curriculum.model_dump`: name, description, and the dumped stages dict. -/
def serializeCurriculum (c : CurriculumVal) : Except PyError CurriculumDoc :=
  match serializeStages c.stages with
  | .error e => .error e
  | .ok ds => .ok { name := c.name, description := c.description, stages := ds }

/-! ## Deserialization

`Curriculum.model_validate` on a document. Pydantic v2 bypasses the custom
`__init__`s here; each field is validated by its own schema: `task` through
the base `Task` (dropping unknown fields), `metrics` through the base
`Metrics`, a `target_stage` of shape `{name, description}` through the
`StageReference` arm of the union, and `callable` through
`Rule._deserialize_callable`. No pass compares transition target names with
the keys of `stages`. -/

/-- Validate one dumped transition; the only fallible part is resolving the
rule string back to a callable. -/
def deserializeTransition (env : RuleEnv) (d : TransitionDoc) :
    Except PyError TransitionRuleVal :=
  match deserializeCallable env (.str d.callable) with
  | .error e => .error e
  | .ok c =>
    .ok { target_stage := d.target_stage, callable := c, description := d.description }

/-- Validate a dumped transition list in order. -/
def deserializeTransitions (env : RuleEnv) :
    List TransitionDoc → Except PyError (List TransitionRuleVal)
  | [] => .ok []
  | d :: ds =>
    match deserializeTransition env d with
    | .error e => .error e
    | .ok t =>
      match deserializeTransitions env ds with
      | .error e => .error e
      | .ok ts => .ok (t :: ts)

/-- Validate one dumped stage. -/
def deserializeStage (env : RuleEnv) (d : StageDoc) : Except PyError StageVal :=
  match deserializeTransitions env d.stage_transitions with
  | .error e => .error e
  | .ok ts =>
    .ok
      { name := d.name
        task := taskAsReference d.task
        stage_transitions := ts
        metrics := d.metrics.map metricsAsReference
        description := d.description }

/-- Validate the dumped stages dict in order. -/
def deserializeStages (env : RuleEnv) :
    List (String × StageDoc) → Except PyError (List (String × StageVal))
  | [] => .ok []
  | (k, d) :: rest =>
    match deserializeStage env d with
    | .error e => .error e
    | .ok s =>
      match deserializeStages env rest with
      | .error e => .error e
      | .ok ss => .ok ((k, s) :: ss)

/-- `Curriculum.model_validate` on a document. -/
def deserializeCurriculum (env : RuleEnv) (d : CurriculumDoc) :
    Except PyError CurriculumVal :=
  match deserializeStages env d.stages with
  | .error e => .error e
  | .ok ss => .ok { name := d.name, description := d.description, stages := ss }

/-! ## Specification-side helpers

Functions used only to state properties: the payload-stripping projection that
the round trip factually applies, the last-occurrence lookup describing
last-write-wins, and cyclicity of the transition name graph. -/

/-- A stage with its task and metrics payloads reduced to their base-class
projections; name, description and transitions untouched. -/
def stripStageVal (s : StageVal) : StageVal :=
  { s with
    task := taskAsReference s.task
    metrics := s.metrics.map metricsAsReference }

/-- A curriculum with every stage payload-stripped. -/
def stripCurriculum (c : CurriculumVal) : CurriculumVal :=
  { c with stages := c.stages.map (fun p => (p.1, stripStageVal p.2)) }

/-- The last stage of the list carrying a given name, if any. -/
def lastWithName (l : List StageVal) (k : String) : Option StageVal :=
  l.reverse.find? (fun s => s.name == k)

/-- The indices Python `list.pop` accepts on a list of length `n`:
`-n <= i < n` (negative indices count from the end). -/
def validPopIdx (n : Nat) (i : Int) : Prop :=
  -(n : Int) ≤ i ∧ i < (n : Int)

/-- The position `list.pop` operates on after normalizing a negative index. -/
def normPopIdx (n : Nat) (i : Int) : Nat :=
  (if i < 0 then i + n else i).toNat

/-- The transition name graph of a curriculum: an edge from the stage stored
under key `x` to name `y` for each transition targeting `y`. -/
def CurriculumEdge (c : CurriculumVal) (x y : String) : Prop :=
  ∃ p ∈ c.stages, p.1 = x ∧ ∃ t ∈ (p.2 : StageVal).stage_transitions, t.target_stage.name = y

/-- A curriculum whose transition name graph contains a cycle. -/
def CyclicCurriculum (c : CurriculumVal) : Prop :=
  ∃ x, Relation.TransGen (CurriculumEdge c) x x

/-! ## Concrete fixtures

Concrete values used by the witnesses and counterexamples, mirroring the
repository's `examples/major_in_dynamic_foraging.py`: two tasks with domain
parameters, named rule functions living in a module `exmod`, a lambda, and a
two-stage curriculum whose transition name graph is the cycle
`stage1 -> stage2 -> stage1`. -/

/-- A named top-level rule function `exmod.rule1`. -/
def exRule1 : PyCallable :=
  { module := "exmod".toList
    name := "rule1".toList
    behavior := fun m => m.name == "go" }

/-- A named top-level rule function `exmod.rule2`. -/
def exRule2 : PyCallable :=
  { module := "exmod".toList
    name := "rule2".toList
    behavior := fun m => decide (m.extra = []) }

/-- A lambda created inside `exmod`: its `__name__` is `"<lambda>"`, and the
module has no attribute of that name. -/
def exLambda : PyCallable :=
  { module := "exmod".toList
    name := "<lambda>".toList
    behavior := fun _ => true }

/-- The module `exmod`, exposing `rule1` and `rule2` (and nothing else). -/
def exModule : PyModule :=
  { attrs := fun n =>
      if n = "rule1".toList then some exRule1
      else if n = "rule2".toList then some exRule2
      else none }

/-- An import environment in which only `exmod` is importable. -/
def exEnv : RuleEnv := fun m => if m = "exmod".toList then some exModule else none

/-- A concrete task with a domain field (`param2`), as a `TaskBar` subtype
instance would carry. -/
def exTask1 : TaskVal :=
  { name := "bar", description := "", version := "0.1.0", extra := [("param2", "A")] }

/-- A second concrete task differing in its domain field. -/
def exTask2 : TaskVal :=
  { name := "bar", description := "", version := "0.1.0", extra := [("param2", "B")] }

/-- A concrete metrics value with a domain field. -/
def exMetrics1 : MetricsVal :=
  { name := "bar_metrics", description := "", extra := [("slope", "1.0")] }

/-- A metrics value with no domain fields. -/
def exMetricsPlain : MetricsVal :=
  { name := "bar_metrics", description := "", extra := [] }

/-- Stage `stage1`, with a transition to `stage2` guarded by `exmod.rule1`. -/
def exStage1 : StageVal :=
  { name := "stage1"
    task := exTask1
    stage_transitions :=
      [{ target_stage := { name := "stage2", description := "" }
         callable := exRule1
         description := "rule1" }]
    metrics := some exMetrics1
    description := "" }

/-- Stage `stage2`, with a transition back to `stage1` guarded by
`exmod.rule2`: together with `exStage1` this closes the cycle. -/
def exStage2 : StageVal :=
  { name := "stage2"
    task := exTask2
    stage_transitions :=
      [{ target_stage := { name := "stage1", description := "" }
         callable := exRule2
         description := "rule2" }]
    metrics := some exMetricsPlain
    description := "" }

/-- The cyclic two-stage curriculum `stage1 -> stage2 -> stage1`. -/
def exCyclicCurriculum : CurriculumVal :=
  curriculumFromList "cyc" "Example curriculum." [exStage1, exStage2]

/-- A one-stage curriculum with no transitions, whose task carries a domain
field; used to exhibit payload stripping. -/
def exPlainStage : StageVal :=
  { name := "s"
    task := exTask1
    stage_transitions := []
    metrics := some exMetricsPlain
    description := "" }

/-- The curriculum holding just `exPlainStage`. -/
def exPlainCurriculum : CurriculumVal := curriculumFromList "cur" "" [exPlainStage]

/-- The document that serializing `exPlainCurriculum` produces: the task's
domain field `param2` is gone. -/
def exPlainDoc : CurriculumDoc :=
  { name := "cur"
    description := ""
    stages :=
      [("s",
        { name := "s"
          task := { name := "bar", description := "", version := "0.1.0", extra := [] }
          stage_transitions := []
          metrics := some { name := "bar_metrics", description := "", extra := [] }
          description := "" })] }

/-- A handwritten document whose single stage `a` has a transition targeting a
stage name `ghost` that is absent from the `stages` mapping. -/
def exDanglingDoc : CurriculumDoc :=
  { name := "cur"
    description := ""
    stages :=
      [("a",
        { name := "a"
          task := { name := "bar", description := "", version := "0.1.0", extra := [] }
          stage_transitions :=
            [{ target_stage := { name := "ghost", description := "" }
               callable := "exmod.rule1".toList
               description := "" }]
          metrics := some { name := "bar_metrics", description := "", extra := [] }
          description := "" })] }

/-- The document that serializing `exCyclicCurriculum` produces: both stage
bodies appear once, each transition target is only a name/description
reference, and both task payloads are base projections. -/
def exCyclicDoc : CurriculumDoc :=
  { name := "cyc"
    description := "Example curriculum."
    stages :=
      [("stage1",
        { name := "stage1"
          task := { name := "bar", description := "", version := "0.1.0", extra := [] }
          stage_transitions :=
            [{ target_stage := { name := "stage2", description := "" }
               callable := "exmod.rule1".toList
               description := "rule1" }]
          metrics := some { name := "bar_metrics", description := "", extra := [] }
          description := "" }),
       ("stage2",
        { name := "stage2"
          task := { name := "bar", description := "", version := "0.1.0", extra := [] }
          stage_transitions :=
            [{ target_stage := { name := "stage1", description := "" }
               callable := "exmod.rule2".toList
               description := "rule2" }]
          metrics := some { name := "bar_metrics", description := "", extra := [] }
          description := "" })] }

/-- The curriculum that deserializing `exDanglingDoc` yields: the `ghost`
target is kept as an unresolved name reference. -/
def exDanglingResult : CurriculumVal :=
  { name := "cur"
    description := ""
    stages :=
      [("a",
        { name := "a"
          task := { name := "bar", description := "", version := "0.1.0", extra := [] }
          stage_transitions :=
            [{ target_stage := { name := "ghost", description := "" }
               callable := exRule1
               description := "" }]
          metrics := some { name := "bar_metrics", description := "", extra := [] }
          description := "" })] }

/-- Two distinct stages that share the name `a` (they differ in description),
for the duplicate-name policy. -/
def exStageA1 : StageVal :=
  { name := "a", task := exTask1, stage_transitions := [],
    metrics := some exMetricsPlain, description := "first" }

/-- The later stage named `a`. -/
def exStageA2 : StageVal :=
  { name := "a", task := exTask2, stage_transitions := [],
    metrics := some exMetricsPlain, description := "second" }

/-- A stage with two transitions, for exercising `pop_transition`. -/
def exStageTwoTransitions : StageVal :=
  { name := "stage3"
    task := exTask1
    stage_transitions :=
      [{ target_stage := { name := "stage1", description := "" }
         callable := exRule1
         description := "t0" },
       { target_stage := { name := "stage2", description := "" }
         callable := exRule2
         description := "t1" }]
    metrics := some exMetrics1
    description := "" }

/-- A stage constructed without a metrics value (the field's default `None`). -/
def exStageNoMetrics : StageVal :=
  { name := "nm"
    task := exTask1
    stage_transitions := []
    metrics := none
    description := "" }

/-! ## Theorems: qualified-name splitting -/

theorem breakRev_no_dot {l : List Char} (h : '.' ∉ l) : breakRev l = none := by
  induction l with
  | nil => rfl
  | cons c rest ih =>
    have hc : c ≠ '.' := fun hc => h (hc ▸ List.mem_cons_self c rest)
    have hrest : '.' ∉ rest := fun hm => h (List.mem_cons_of_mem c hm)
    simp [breakRev, hc, ih hrest]

theorem breakRev_append {l rest : List Char} (h : ∀ c ∈ l, c ≠ '.') :
    breakRev (l ++ '.' :: rest) = some (l, rest) := by
  induction l with
  | nil => simp [breakRev]
  | cons c tl ih =>
    have hc : c ≠ '.' := h c (List.mem_cons_self c tl)
    have htl : ∀ x ∈ tl, x ≠ '.' := fun x hx => h x (List.mem_cons_of_mem c hx)
    simp [breakRev, hc, ih htl]

/-- `rsplit(".", 1)` on a string with no dot returns the singleton list. -/
theorem rsplitDot1_no_dot {s : PyStr} (h : '.' ∉ s) : rsplitDot1 s = [s] := by
  have : '.' ∉ s.reverse := by
    intro hm
    exact h (List.mem_reverse.mp hm)
  simp [rsplitDot1, breakRev_no_dot this]

/-- `rsplit(".", 1)` on `module + "." + name` with a dot-free `name` splits at
exactly that last dot. -/
theorem rsplitDot1_join {md nm : PyStr} (h : '.' ∉ nm) :
    rsplitDot1 (md ++ '.' :: nm) = [md, nm] := by
  have hrev : (md ++ '.' :: nm).reverse = nm.reverse ++ '.' :: md.reverse := by
    simp [List.reverse_append]
  have hnm : ∀ c ∈ nm.reverse, c ≠ '.' := by
    intro c hc he
    exact h (he ▸ List.mem_reverse.mp hc)
  simp [rsplitDot1, hrev, breakRev_append hnm]

/-- Resolving the emitted qualified name of a resolvable callable restores it. -/
theorem deserializeCallable_symbolicName {env : RuleEnv} {c : PyCallable}
    (h : Resolvable env c) :
    deserializeCallable env (.str (ruleSymbolicName c)) = .ok c := by
  obtain ⟨hdot, m, hm, ha⟩ := h
  simp [deserializeCallable, ruleSymbolicName, rsplitDot1_join hdot, hm, ha]

theorem stripStageVal_name (s : StageVal) : (stripStageVal s).name = s.name := rfl

theorem stripStageVal_transitions (s : StageVal) :
    (stripStageVal s).stage_transitions = s.stage_transitions := rfl

theorem taskAsReference_idem (t : TaskVal) :
    taskAsReference (taskAsReference t) = taskAsReference t := rfl

theorem metricsAsReference_idem (m : MetricsVal) :
    metricsAsReference (metricsAsReference m) = metricsAsReference m := rfl

/-! ## Round-trip lemmas -/

theorem deserializeTransition_serialize {env : RuleEnv} {t : TransitionRuleVal}
    (h : Resolvable env t.callable) :
    deserializeTransition env (serializeTransition t) = .ok t := by
  simp [deserializeTransition, serializeTransition, deserializeCallable_symbolicName h]

theorem deserializeTransitions_serialize {env : RuleEnv} :
    ∀ {ts : List TransitionRuleVal}, (∀ t ∈ ts, Resolvable env t.callable) →
      deserializeTransitions env (ts.map serializeTransition) = .ok ts := by
  intro ts
  induction ts with
  | nil => intro _; rfl
  | cons t ts ih =>
    intro h
    have ht : Resolvable env t.callable := h t (List.mem_cons_self t ts)
    have hts : ∀ u ∈ ts, Resolvable env u.callable :=
      fun u hu => h u (List.mem_cons_of_mem t hu)
    simp [deserializeTransitions, deserializeTransition_serialize ht, ih hts]

theorem roundtrip_stage {env : RuleEnv} {s : StageVal} {m : MetricsVal}
    (hm : s.metrics = some m)
    (hr : ∀ t ∈ s.stage_transitions, Resolvable env t.callable) :
    ∃ d, serializeStage s = .ok d ∧ deserializeStage env d = .ok (stripStageVal s) := by
  refine ⟨{ name := s.name, task := taskAsReference s.task,
            stage_transitions := s.stage_transitions.map serializeTransition,
            metrics := some (metricsAsReference m),
            description := s.description }, ?_, ?_⟩
  · simp [serializeStage, hm]
  · simp [deserializeStage, deserializeTransitions_serialize hr,
      stripStageVal, taskAsReference_idem, metricsAsReference_idem, hm]

theorem roundtrip_stages {env : RuleEnv} :
    ∀ {es : List (String × StageVal)},
      (∀ p ∈ es, (p.2 : StageVal).metrics.isSome) →
      (∀ p ∈ es, ∀ t ∈ (p.2 : StageVal).stage_transitions, Resolvable env t.callable) →
      ∃ ds, serializeStages es = .ok ds ∧
        deserializeStages env ds = .ok (es.map (fun p => (p.1, stripStageVal p.2))) := by
  intro es
  induction es with
  | nil => intro _ _; exact ⟨[], rfl, rfl⟩
  | cons p rest ih =>
    intro hm hr
    obtain ⟨mv, hmv⟩ := Option.isSome_iff_exists.mp (hm p (List.mem_cons_self p rest))
    have hrp : ∀ t ∈ (p.2 : StageVal).stage_transitions, Resolvable env t.callable :=
      hr p (List.mem_cons_self p rest)
    obtain ⟨d, hd, hdes⟩ := @roundtrip_stage env p.2 mv hmv hrp
    obtain ⟨ds, hds, hdess⟩ :=
      ih (fun q hq => hm q (List.mem_cons_of_mem p hq))
        (fun q hq => hr q (List.mem_cons_of_mem p hq))
    refine ⟨(p.1, d) :: ds, ?_, ?_⟩
    · simp [serializeStages, hd, hds]
    · simp [deserializeStages, hdes, hdess]

theorem roundtrip_curriculum {env : RuleEnv} {c : CurriculumVal}
    (hm : ∀ p ∈ c.stages, (p.2 : StageVal).metrics.isSome)
    (hr : ∀ p ∈ c.stages, ∀ t ∈ (p.2 : StageVal).stage_transitions,
      Resolvable env t.callable) :
    ∃ d, serializeCurriculum c = .ok d ∧
      deserializeCurriculum env d = .ok (stripCurriculum c) := by
  obtain ⟨ds, hds, hdess⟩ := roundtrip_stages hm hr
  refine ⟨{ name := c.name, description := c.description, stages := ds }, ?_, ?_⟩
  · simp [serializeCurriculum, hds]
  · simp [deserializeCurriculum, hdess, stripCurriculum]

/-! ## Claim C1 -/

/-- C1 (amended). For every Curriculum whose stages all carry a metrics value
and whose transition rules are all importable top-level functions,
deserializing the serialization succeeds and yields exactly the
payload-stripped curriculum: stage mapping keys, each stage's `name`, the
order of each stage's transition list, each transition's target reference,
description and rule symbolic name are preserved (also across a cyclic stage
graph), while each stage's task and metrics payloads are reduced to their
base-class projections (the concrete subtype's domain fields are dropped by
`_task_as_reference` / `_metrics_as_reference`), so the full payloads are not
preserved. -/
theorem c1_roundtrip_up_to_projection (env : RuleEnv) (c : CurriculumVal)
    (hm : ∀ p ∈ c.stages, (p.2 : StageVal).metrics.isSome)
    (hr : ∀ p ∈ c.stages, ∀ t ∈ (p.2 : StageVal).stage_transitions,
      Resolvable env t.callable) :
    ∃ d, serializeCurriculum c = .ok d ∧
      deserializeCurriculum env d = .ok (stripCurriculum c) ∧
      (stripCurriculum c).stages.map Prod.fst = c.stages.map Prod.fst ∧
      (stripCurriculum c).stages.map (fun p => (p.2 : StageVal).name)
        = c.stages.map (fun p => (p.2 : StageVal).name) ∧
      (stripCurriculum c).stages.map
          (fun p => (p.2 : StageVal).stage_transitions.map
            (fun t => (t.target_stage, ruleSymbolicName t.callable, t.description)))
        = c.stages.map
          (fun p => (p.2 : StageVal).stage_transitions.map
            (fun t => (t.target_stage, ruleSymbolicName t.callable, t.description))) := by
  obtain ⟨d, hd, hdes⟩ := roundtrip_curriculum hm hr
  refine ⟨d, hd, hdes, ?_, ?_, ?_⟩ <;>
    simp [stripCurriculum, List.map_map, Function.comp_def,
      stripStageVal_name, stripStageVal_transitions]

/-- Witness for C1: the amended round trip instantiated at the concrete cyclic
curriculum `stage1 -> stage2 -> stage1` under the environment exposing
`exmod.rule1` / `exmod.rule2`. -/
theorem c1_roundtrip_up_to_projection_witness :
    ∃ d, serializeCurriculum exCyclicCurriculum = .ok d ∧
      deserializeCurriculum exEnv d = .ok (stripCurriculum exCyclicCurriculum) ∧
      (stripCurriculum exCyclicCurriculum).stages.map Prod.fst
        = exCyclicCurriculum.stages.map Prod.fst ∧
      (stripCurriculum exCyclicCurriculum).stages.map (fun p => (p.2 : StageVal).name)
        = exCyclicCurriculum.stages.map (fun p => (p.2 : StageVal).name) ∧
      (stripCurriculum exCyclicCurriculum).stages.map
          (fun p => (p.2 : StageVal).stage_transitions.map
            (fun t => (t.target_stage, ruleSymbolicName t.callable, t.description)))
        = exCyclicCurriculum.stages.map
          (fun p => (p.2 : StageVal).stage_transitions.map
            (fun t => (t.target_stage, ruleSymbolicName t.callable, t.description))) :=
  c1_roundtrip_up_to_projection exEnv exCyclicCurriculum (by decide)
    (by
      intro p hp t ht
      rw [show exCyclicCurriculum.stages
          = [("stage1", exStage1), ("stage2", exStage2)] from rfl] at hp
      rcases List.mem_cons.mp hp with h | h
      · subst h
        simp [exStage1] at ht
        subst ht
        exact ⟨by decide, exModule, rfl, rfl⟩
      · rcases List.mem_cons.mp h with h2 | h2
        · subst h2
          simp [exStage2] at ht
          subst ht
          exact ⟨by decide, exModule, rfl, rfl⟩
        · exact absurd h2 (List.not_mem_nil p))

/-- Counterexample to C1 as stated: a validly constructed one-stage curriculum
whose task carries the domain field `param2 = "A"`. The round trip succeeds
but returns the payload-stripped curriculum: the task payload of the result is
empty where the original held `param2`, so the result is not structurally
equal to the original in its task payload. -/
theorem c1_roundtrip_counterexample :
    serializeCurriculum exPlainCurriculum = .ok exPlainDoc ∧
    deserializeCurriculum exEnv exPlainDoc = .ok (stripCurriculum exPlainCurriculum) ∧
    (stripCurriculum exPlainCurriculum).stages.map (fun p => (p.2 : StageVal).task.extra)
      = [[]] ∧
    exPlainCurriculum.stages.map (fun p => (p.2 : StageVal).task.extra)
      = [[("param2", "A")]] ∧
    stripCurriculum exPlainCurriculum ≠ exPlainCurriculum := by
  refine ⟨rfl, rfl, rfl, rfl, fun h => ?_⟩
  exact absurd
    (congrArg (fun c => c.stages.map (fun p => (p.2 : StageVal).task.extra)) h)
    (by decide)

/-! ## Claim C2 -/

/-- C2 (amended). Serializing a Stage emits the stage's own task and metrics
only as base-class reference projections: the identity fields (name,
description, version) are preserved but the concrete subtype's domain fields
are dropped (the field serializers revalidate the payload through the base
`Task`/`Metrics` classes, whose `extra="ignore"` discards them); each
transition's `target_stage` is emitted only as that target's reference
projection, and each rule only as its qualified name. -/
theorem c2_stage_serialization_projections (s : StageVal) (m : MetricsVal)
    (hm : s.metrics = some m) :
    ∃ d, serializeStage s = .ok d ∧
      d.task.name = s.task.name ∧
      d.task.description = s.task.description ∧
      d.task.version = s.task.version ∧
      d.task.extra = [] ∧
      d.metrics = some { name := m.name, description := m.description, extra := [] } ∧
      d.stage_transitions.map (fun t => t.target_stage)
        = s.stage_transitions.map (fun t => t.target_stage) ∧
      d.stage_transitions.map (fun t => t.callable)
        = s.stage_transitions.map (fun t => ruleSymbolicName t.callable) := by
  refine ⟨{ name := s.name, task := taskAsReference s.task,
            stage_transitions := s.stage_transitions.map serializeTransition,
            metrics := some (metricsAsReference m),
            description := s.description }, ?_, rfl, rfl, rfl, rfl, rfl, ?_, ?_⟩
  · simp [serializeStage, hm]
  · simp [List.map_map, Function.comp_def, serializeTransition]
  · simp [List.map_map, Function.comp_def, serializeTransition]

/-- Witness for C2: the projection behavior at the concrete stage `stage1`,
whose task carries `param2 = "A"` and whose metrics carries `slope = "1.0"`. -/
theorem c2_stage_serialization_projections_witness :
    ∃ d, serializeStage exStage1 = .ok d ∧
      d.task.name = exStage1.task.name ∧
      d.task.description = exStage1.task.description ∧
      d.task.version = exStage1.task.version ∧
      d.task.extra = [] ∧
      d.metrics = some { name := exMetrics1.name, description := exMetrics1.description,
                         extra := [] } ∧
      d.stage_transitions.map (fun t => t.target_stage)
        = exStage1.stage_transitions.map (fun t => t.target_stage) ∧
      d.stage_transitions.map (fun t => t.callable)
        = exStage1.stage_transitions.map (fun t => ruleSymbolicName t.callable) :=
  c2_stage_serialization_projections exStage1 exMetrics1 rfl

/-- Counterexample to C2 as stated: serializing `stage1` does not emit its own
task in full — the emitted task payload is empty while the stage's task holds
the domain field `param2`. -/
theorem c2_counterexample :
    (serializeStage exStage1).toOption.map (fun d => d.task.extra) = some [] ∧
    exStage1.task.extra = [("param2", "A")] ∧
    (serializeStage exStage1).toOption.map (fun d => d.task.extra)
      ≠ some exStage1.task.extra := by
  refine ⟨rfl, rfl, ?_⟩
  decide

/-! ## Claim C10 -/

/-- C10. Construction permits a Stage without a metrics value (the field
defaults to `None`), but serializing such a Stage raises: the metrics field
serializer evaluates `metrics.model_dump_json()` unconditionally, which on
`None` is an `AttributeError`, so no document is produced. -/
theorem c10_none_metrics_serialization_fails (s : StageVal) (h : s.metrics = none) :
    serializeStage s = .error .attributeErrorNoneMetrics := by
  simp [serializeStage, h]

/-- Witness for C10: the concrete metrics-less stage fails to serialize. -/
theorem c10_none_metrics_serialization_fails_witness :
    exStageNoMetrics.metrics = none ∧
    serializeStage exStageNoMetrics = .error .attributeErrorNoneMetrics :=
  ⟨rfl, c10_none_metrics_serialization_fails exStageNoMetrics rfl⟩

/-! ## Claim C3 -/

theorem dictUpd_any_eq {α : Type} (m : List (String × α)) (k : String) :
    m.any (fun p => p.1 == k) = true ↔ k ∈ m.map Prod.fst := by
  simp [List.any_eq_true, List.mem_map]

theorem dictUpd_fst_map {α : Type} (m : List (String × α)) (k : String) (v : α) :
    (m.map (fun p => if p.1 == k then (k, v) else p)).map Prod.fst = m.map Prod.fst := by
  rw [List.map_map]
  refine List.map_congr_left ?_
  intro p hp
  by_cases hb : p.1 = k
  · simp [Function.comp, beq_iff_eq, hb]
  · simp [Function.comp, beq_iff_eq, hb]

theorem dictUpd_keys {α : Type} (m : List (String × α)) (k : String) (v : α) :
    (dictUpd m k v).map Prod.fst =
      if k ∈ m.map Prod.fst then m.map Prod.fst else m.map Prod.fst ++ [k] := by
  unfold dictUpd
  by_cases h : k ∈ m.map Prod.fst
  · rw [if_pos ((dictUpd_any_eq m k).mpr h), if_pos h]
    exact dictUpd_fst_map m k v
  · have ha : ¬ m.any (fun p => p.1 == k) = true :=
      fun hh => h ((dictUpd_any_eq m k).mp hh)
    rw [if_neg ha, if_neg h]
    simp

theorem dictUpd_keys_nodup {α : Type} {m : List (String × α)}
    (h : (m.map Prod.fst).Nodup) (k : String) (v : α) :
    ((dictUpd m k v).map Prod.fst).Nodup := by
  rw [dictUpd_keys]
  by_cases hk : k ∈ m.map Prod.fst
  · rw [if_pos hk]; exact h
  · rw [if_neg hk]
    refine List.Nodup.append h (List.nodup_singleton k) ?_
    intro a ha hb
    rw [List.mem_singleton] at hb
    exact hk (hb ▸ ha)

theorem stagesDict_go_keys_nodup :
    ∀ (l : List StageVal) (m : List (String × StageVal)),
      (m.map Prod.fst).Nodup →
      ((l.foldl (fun m s => dictUpd m s.name s) m).map Prod.fst).Nodup := by
  intro l
  induction l with
  | nil => intro m h; simpa using h
  | cons s l ih => intro m h; exact ih _ (dictUpd_keys_nodup h s.name s)

/-- The keys of the dict built by `Curriculum.__init__` carry no duplicates
(python dict key uniqueness). -/
theorem stagesDict_keys_nodup (l : List StageVal) :
    ((stagesDict l).map Prod.fst).Nodup :=
  stagesDict_go_keys_nodup l [] (by simp)

theorem serializeStage_ok {s : StageVal} {d : StageDoc} (h : serializeStage s = .ok d) :
    d.name = s.name ∧ d.stage_transitions = s.stage_transitions.map serializeTransition := by
  unfold serializeStage at h
  cases hm : s.metrics with
  | none => rw [hm] at h; cases h
  | some m => rw [hm] at h; cases h; exact ⟨rfl, rfl⟩

theorem serializeStages_ok :
    ∀ {es : List (String × StageVal)} {dss : List (String × StageDoc)},
      serializeStages es = .ok dss →
      dss.map Prod.fst = es.map Prod.fst ∧
      dss.map (fun p => (p.2 : StageDoc).stage_transitions.map (fun t => t.target_stage))
        = es.map
            (fun p => (p.2 : StageVal).stage_transitions.map (fun t => t.target_stage)) := by
  intro es
  induction es with
  | nil =>
    intro dss h
    cases h
    simp
  | cons p rest ih =>
    intro dss h
    obtain ⟨k, s⟩ := p
    unfold serializeStages at h
    cases hs : serializeStage s with
    | error e => rw [hs] at h; cases h
    | ok d =>
      rw [hs] at h
      cases hrest : serializeStages rest with
      | error e => rw [hrest] at h; cases h
      | ok ds2 =>
        rw [hrest] at h
        cases h
        obtain ⟨h1, h2⟩ := ih hrest
        obtain ⟨hn, ht⟩ := serializeStage_ok hs
        refine ⟨by simp [h1], ?_⟩
        simp only [List.map_cons, h2, ht, List.map_map]
        rfl

/-- C3. For every constructor-built Curriculum whose transition name graph is
cyclic, if serialization produces a document (a finite Lean value by
construction, with every transition target dumped only as its
name/description `StageReference` projection — the `task`,
`stage_transitions` and `metrics` fields of a reference are `exclude=True`
and never emitted), then the document's top-level stages mapping lists
exactly the curriculum's stage keys with no duplicates (each stage's full
body appears exactly once), and the targets written for each stage's
transitions are exactly the stored reference projections, in order. -/
theorem c3_cyclic_serialization (nm ds : String) (l : List StageVal) (d : CurriculumDoc)
    (_hcyc : CyclicCurriculum (curriculumFromList nm ds l))
    (hser : serializeCurriculum (curriculumFromList nm ds l) = .ok d) :
    d.stages.map Prod.fst = (curriculumFromList nm ds l).stages.map Prod.fst ∧
    (d.stages.map Prod.fst).Nodup ∧
    d.stages.map (fun p => (p.2 : StageDoc).stage_transitions.map (fun t => t.target_stage))
      = (curriculumFromList nm ds l).stages.map
          (fun p => (p.2 : StageVal).stage_transitions.map (fun t => t.target_stage)) := by
  unfold serializeCurriculum at hser
  cases hs : serializeStages (curriculumFromList nm ds l).stages with
  | error e => rw [hs] at hser; cases hser
  | ok dss =>
    rw [hs] at hser
    cases hser
    obtain ⟨h1, h2⟩ := serializeStages_ok hs
    exact ⟨h1, by rw [h1]; exact stagesDict_keys_nodup l, h2⟩

/-- Witness for C3: the cyclic curriculum `stage1 -> stage2 -> stage1`
serializes to the concrete finite document `exCyclicDoc`, in which each stage
appears exactly once and every target is a bare reference. -/
theorem c3_cyclic_serialization_witness :
    exCyclicDoc.stages.map Prod.fst
      = (curriculumFromList "cyc" "Example curriculum." [exStage1, exStage2]).stages.map
          Prod.fst ∧
    (exCyclicDoc.stages.map Prod.fst).Nodup ∧
    exCyclicDoc.stages.map
        (fun p => (p.2 : StageDoc).stage_transitions.map (fun t => t.target_stage))
      = (curriculumFromList "cyc" "Example curriculum." [exStage1, exStage2]).stages.map
          (fun p => (p.2 : StageVal).stage_transitions.map (fun t => t.target_stage)) :=
  c3_cyclic_serialization "cyc" "Example curriculum." [exStage1, exStage2] exCyclicDoc
    (by
      have hst : (curriculumFromList "cyc" "Example curriculum."
          [exStage1, exStage2]).stages
          = [("stage1", exStage1), ("stage2", exStage2)] := rfl
      have e12 : CurriculumEdge
          (curriculumFromList "cyc" "Example curriculum." [exStage1, exStage2])
          "stage1" "stage2" := by
        refine ⟨("stage1", exStage1), ?_, rfl, ?_⟩
        · rw [hst]
          exact List.mem_cons_self _ _
        · exact ⟨_, List.mem_singleton_self _, rfl⟩
      have e21 : CurriculumEdge
          (curriculumFromList "cyc" "Example curriculum." [exStage1, exStage2])
          "stage2" "stage1" := by
        refine ⟨("stage2", exStage2), ?_, rfl, ?_⟩
        · rw [hst]
          exact List.mem_cons_of_mem _ (List.mem_cons_self _ _)
        · exact ⟨_, List.mem_singleton_self _, rfl⟩
      exact ⟨"stage1", (Relation.TransGen.single e12).tail e21⟩)
    rfl

/-! ## Claim C4 -/

theorem deserializeTransition_ok_iff {env : RuleEnv} {d : TransitionDoc} :
    (∃ t, deserializeTransition env d = .ok t) ↔
      ∃ g, deserializeCallable env (.str d.callable) = .ok g := by
  unfold deserializeTransition
  cases h : deserializeCallable env (.str d.callable) with
  | error e => simp
  | ok g => simp

theorem deserializeTransition_target {env : RuleEnv} {d : TransitionDoc}
    {t : TransitionRuleVal} (h : deserializeTransition env d = .ok t) :
    t.target_stage = d.target_stage := by
  unfold deserializeTransition at h
  cases hc : deserializeCallable env (.str d.callable) with
  | error e => rw [hc] at h; cases h
  | ok g => rw [hc] at h; cases h; rfl

theorem deserializeTransitions_targets {env : RuleEnv} :
    ∀ {tds : List TransitionDoc} {ts : List TransitionRuleVal},
      deserializeTransitions env tds = .ok ts →
      ts.map (fun t => t.target_stage) = tds.map (fun t => t.target_stage) := by
  intro tds
  induction tds with
  | nil => intro ts h; cases h; rfl
  | cons d rest ih =>
    intro ts h
    unfold deserializeTransitions at h
    cases hd : deserializeTransition env d with
    | error e => rw [hd] at h; cases h
    | ok t0 =>
      rw [hd] at h
      cases hrest : deserializeTransitions env rest with
      | error e => rw [hrest] at h; cases h
      | ok ts2 =>
        rw [hrest] at h
        cases h
        simp [ih hrest, deserializeTransition_target hd]

theorem deserializeTransitions_ok_iff {env : RuleEnv} :
    ∀ {tds : List TransitionDoc},
      (∃ ts, deserializeTransitions env tds = .ok ts) ↔
        ∀ t ∈ tds, ∃ g, deserializeCallable env (.str t.callable) = .ok g := by
  intro tds
  induction tds with
  | nil =>
    constructor
    · intro _ t ht
      exact absurd ht (List.not_mem_nil t)
    · intro _
      exact ⟨[], rfl⟩
  | cons d rest ih =>
    constructor
    · rintro ⟨ts, hts⟩ t ht
      unfold deserializeTransitions at hts
      cases hd : deserializeTransition env d with
      | error e => rw [hd] at hts; cases hts
      | ok t0 =>
        rw [hd] at hts
        cases hrest : deserializeTransitions env rest with
        | error e => rw [hrest] at hts; cases hts
        | ok ts2 =>
          rcases List.mem_cons.mp ht with h | h
          · subst h
            exact deserializeTransition_ok_iff.mp ⟨t0, hd⟩
          · exact (ih.mp ⟨ts2, hrest⟩) t h
    · intro hall
      obtain ⟨g, hg⟩ := hall d (List.mem_cons_self d rest)
      obtain ⟨t0, ht0⟩ := deserializeTransition_ok_iff.mpr ⟨g, hg⟩
      obtain ⟨ts2, hts2⟩ := ih.mpr (fun t ht => hall t (List.mem_cons_of_mem d ht))
      refine ⟨t0 :: ts2, ?_⟩
      unfold deserializeTransitions
      rw [ht0, hts2]

theorem deserializeStage_ok_iff {env : RuleEnv} {d : StageDoc} :
    (∃ s, deserializeStage env d = .ok s) ↔
      ∀ t ∈ d.stage_transitions, ∃ g, deserializeCallable env (.str t.callable) = .ok g := by
  unfold deserializeStage
  constructor
  · rintro ⟨s, hs⟩
    cases h : deserializeTransitions env d.stage_transitions with
    | error e => rw [h] at hs; cases hs
    | ok ts => exact deserializeTransitions_ok_iff.mp ⟨ts, h⟩
  · intro hall
    obtain ⟨ts, hts⟩ := deserializeTransitions_ok_iff.mpr hall
    exact ⟨_, by rw [hts]⟩

theorem deserializeStage_targets {env : RuleEnv} {d : StageDoc} {s : StageVal}
    (h : deserializeStage env d = .ok s) :
    s.name = d.name ∧
    s.stage_transitions.map (fun t => t.target_stage)
      = d.stage_transitions.map (fun t => t.target_stage) := by
  unfold deserializeStage at h
  cases ht : deserializeTransitions env d.stage_transitions with
  | error e => rw [ht] at h; cases h
  | ok ts => rw [ht] at h; cases h; exact ⟨rfl, deserializeTransitions_targets ht⟩

theorem deserializeStages_ok_iff {env : RuleEnv} :
    ∀ {sds : List (String × StageDoc)},
      (∃ ss, deserializeStages env sds = .ok ss) ↔
        ∀ p ∈ sds, ∀ t ∈ (p.2 : StageDoc).stage_transitions,
          ∃ g, deserializeCallable env (.str t.callable) = .ok g := by
  intro sds
  induction sds with
  | nil =>
    constructor
    · intro _ p hp
      exact absurd hp (List.not_mem_nil p)
    · intro _
      exact ⟨[], rfl⟩
  | cons p rest ih =>
    obtain ⟨k, sd⟩ := p
    constructor
    · rintro ⟨ss, hss⟩ q hq
      unfold deserializeStages at hss
      cases hd : deserializeStage env sd with
      | error e => rw [hd] at hss; cases hss
      | ok s0 =>
        rw [hd] at hss
        cases hrest : deserializeStages env rest with
        | error e => rw [hrest] at hss; cases hss
        | ok ss2 =>
          rcases List.mem_cons.mp hq with h | h
          · subst h
            exact fun t ht => deserializeStage_ok_iff.mp ⟨s0, hd⟩ t ht
          · exact (ih.mp ⟨ss2, hrest⟩) q h
    · intro hall
      obtain ⟨s0, hs0⟩ :=
        deserializeStage_ok_iff.mpr (hall (k, sd) (List.mem_cons_self (k, sd) rest))
      obtain ⟨ss2, hss2⟩ := ih.mpr (fun q hq => hall q (List.mem_cons_of_mem (k, sd) hq))
      refine ⟨(k, s0) :: ss2, ?_⟩
      unfold deserializeStages
      rw [hs0, hss2]

theorem deserializeStages_targets {env : RuleEnv} :
    ∀ {sds : List (String × StageDoc)} {ss : List (String × StageVal)},
      deserializeStages env sds = .ok ss →
      ss.map Prod.fst = sds.map Prod.fst ∧
      ss.map (fun p => (p.2 : StageVal).stage_transitions.map (fun t => t.target_stage))
        = sds.map
            (fun p => (p.2 : StageDoc).stage_transitions.map (fun t => t.target_stage)) := by
  intro sds
  induction sds with
  | nil => intro ss h; cases h; exact ⟨rfl, rfl⟩
  | cons p rest ih =>
    intro ss h
    obtain ⟨k, sd⟩ := p
    unfold deserializeStages at h
    cases hd : deserializeStage env sd with
    | error e => rw [hd] at h; cases h
    | ok s0 =>
      rw [hd] at h
      cases hrest : deserializeStages env rest with
      | error e => rw [hrest] at h; cases h
      | ok ss2 =>
        rw [hrest] at h
        cases h
        obtain ⟨h1, h2⟩ := ih hrest
        obtain ⟨hn, ht⟩ := deserializeStage_targets hd
        exact ⟨by simp [h1], by simp [h2, ht]⟩

/-- C4 (amended). Deserialization performs no dangling-target check and
defines no `DanglingTransitionTargetError`: deserializing a document succeeds
exactly when every transition's rule string resolves to a callable —
independently of whether any transition's `target_stage` name occurs among
the document's stage keys — and on success the resulting Curriculum keeps
every stage key and every transition's name-only target reference from the
document unchanged (a dangling target is kept, unresolved). -/
theorem c4_no_dangling_check (env : RuleEnv) (d : CurriculumDoc) :
    ((∃ c, deserializeCurriculum env d = .ok c) ↔
      ∀ p ∈ d.stages, ∀ t ∈ (p.2 : StageDoc).stage_transitions,
        ∃ g, deserializeCallable env (.str t.callable) = .ok g) ∧
    ∀ c, deserializeCurriculum env d = .ok c →
      c.stages.map Prod.fst = d.stages.map Prod.fst ∧
      c.stages.map (fun p => (p.2 : StageVal).stage_transitions.map (fun t => t.target_stage))
        = d.stages.map
            (fun p => (p.2 : StageDoc).stage_transitions.map (fun t => t.target_stage)) := by
  constructor
  · constructor
    · rintro ⟨c, hc⟩
      unfold deserializeCurriculum at hc
      cases hs : deserializeStages env d.stages with
      | error e => rw [hs] at hc; cases hc
      | ok ss => exact deserializeStages_ok_iff.mp ⟨ss, hs⟩
    · intro hall
      obtain ⟨ss, hss⟩ := deserializeStages_ok_iff.mpr hall
      exact ⟨_, by unfold deserializeCurriculum; rw [hss]⟩
  · intro c hc
    unfold deserializeCurriculum at hc
    cases hs : deserializeStages env d.stages with
    | error e => rw [hs] at hc; cases hc
    | ok ss =>
      rw [hs] at hc
      cases hc
      exact deserializeStages_targets hs

/-- Counterexample to C4 as stated: the handwritten document whose single
stage `a` has a transition targeting the absent name `ghost` deserializes
successfully (no error of any kind is raised, no `DanglingTransitionTargetError`
exists in the code); the result keeps the dangling reference. -/
theorem c4_counterexample :
    deserializeCurriculum exEnv exDanglingDoc = .ok exDanglingResult ∧
    exDanglingResult.stages.map Prod.fst = ["a"] ∧
    exDanglingResult.stages.map
        (fun p => (p.2 : StageVal).stage_transitions.map (fun t => t.target_stage.name))
      = [["ghost"]] ∧
    "ghost" ∉ exDanglingResult.stages.map Prod.fst := by
  refine ⟨rfl, rfl, rfl, by decide⟩

/-! ## Claim C5 -/

/-- C5 (amended). Serializing a rule reference to a function-valued predicate
never fails: every Python function — a lambda included — carries
`__module__` and `__name__`, and `_serialize_callable` emits
`__module__ + "." + __name__` unconditionally (no `UnresolvableSymbolError`
exists). For a lambda the emitted name is `module.<lambda>`, and the
restriction to importable named functions only bites later, at
deserialization: resolving the emitted name fails with `AttributeError` when
the module has no attribute equal to the `__name__`. -/
theorem c5_serialize_never_fails (env : RuleEnv) (c : PyCallable) :
    serializeCallable env (.callable c) = .ok (ruleSymbolicName c) ∧
    (∀ m, '.' ∉ c.name → env c.module = some m → m.attrs c.name = none →
      deserializeCallable env (.str (ruleSymbolicName c)) = .error .attributeError) := by
  refine ⟨rfl, ?_⟩
  intro m hdot hm ha
  simp [deserializeCallable, ruleSymbolicName, rsplitDot1_join hdot, hm, ha]

/-- Witness for C5: serializing the lambda succeeds with `exmod.<lambda>`,
and resolving that emitted name back fails, `exmod` having no attribute
`<lambda>`. -/
theorem c5_serialize_never_fails_witness :
    serializeCallable exEnv (.callable exLambda) = .ok (ruleSymbolicName exLambda) ∧
    deserializeCallable exEnv (.str (ruleSymbolicName exLambda))
      = .error .attributeError :=
  ⟨(c5_serialize_never_fails exEnv exLambda).1,
   (c5_serialize_never_fails exEnv exLambda).2 exModule (by decide) rfl rfl⟩

/-- Counterexample to C5 as stated: serializing a reference to a locally
created anonymous lambda does not fail — it succeeds, emitting the
unresolvable name `exmod.<lambda>`. -/
theorem c5_counterexample :
    serializeCallable exEnv (.callable exLambda) = .ok ("exmod.<lambda>".toList) := rfl

/-! ## Claim C6 -/

/-- C6 (amended). Deserializing a rule reference returns an already-callable
input unchanged. A string input is split at its last dot: when the module
part cannot be imported the failure is `ModuleNotFoundError`, and when the
module lacks the symbol it is `AttributeError` (the spec's
`SymbolResolutionError` cases); when both resolve, the module's attribute is
returned. A string with no separator, however, does not fail with a
malformed-reference error: the code evaluates `globals()[split]` with the
split list itself as key, raising `TypeError` — the `ValueError` branch
guarding malformed references is unreachable because `rsplit` always returns
a nonempty list. -/
theorem c6_deserialize_behavior (env : RuleEnv) :
    (∀ c, deserializeCallable env (.callable c) = .ok c) ∧
    (∀ s : PyStr, '.' ∉ s →
      deserializeCallable env (.str s) = .error .typeErrorUnhashableList) ∧
    (∀ md nm : PyStr, '.' ∉ nm → env md = none →
      deserializeCallable env (.str (md ++ '.' :: nm)) = .error .moduleNotFoundError) ∧
    (∀ md nm : PyStr, ∀ m, '.' ∉ nm → env md = some m → m.attrs nm = none →
      deserializeCallable env (.str (md ++ '.' :: nm)) = .error .attributeError) ∧
    (∀ md nm : PyStr, ∀ m g, '.' ∉ nm → env md = some m → m.attrs nm = some g →
      deserializeCallable env (.str (md ++ '.' :: nm)) = .ok g) := by
  refine ⟨fun c => rfl, ?_, ?_, ?_, ?_⟩
  · intro s hs
    simp [deserializeCallable, rsplitDot1_no_dot hs]
  · intro md nm hdot hmd
    simp [deserializeCallable, rsplitDot1_join hdot, hmd]
  · intro md nm m hdot hmd ha
    simp [deserializeCallable, rsplitDot1_join hdot, hmd, ha]
  · intro md nm m g hdot hmd ha
    simp [deserializeCallable, rsplitDot1_join hdot, hmd, ha]

/-- Witness for C6: each behavior at a concrete input — callable pass-through,
the `TypeError` on the separator-free string `nodots`, `ModuleNotFoundError`
on `missing.rule`, `AttributeError` on `exmod.zap`, and successful resolution
of `exmod.rule1`. -/
theorem c6_deserialize_behavior_witness :
    deserializeCallable exEnv (.callable exLambda) = .ok exLambda ∧
    deserializeCallable exEnv (.str "nodots".toList) = .error .typeErrorUnhashableList ∧
    deserializeCallable exEnv (.str ("missing".toList ++ '.' :: "rule".toList))
      = .error .moduleNotFoundError ∧
    deserializeCallable exEnv (.str ("exmod".toList ++ '.' :: "zap".toList))
      = .error .attributeError ∧
    deserializeCallable exEnv (.str ("exmod".toList ++ '.' :: "rule1".toList))
      = .ok exRule1 :=
  ⟨(c6_deserialize_behavior exEnv).1 exLambda,
   (c6_deserialize_behavior exEnv).2.1 "nodots".toList (by decide),
   (c6_deserialize_behavior exEnv).2.2.1 "missing".toList "rule".toList (by decide) rfl,
   (c6_deserialize_behavior exEnv).2.2.2.1 "exmod".toList "zap".toList exModule
     (by decide) rfl rfl,
   (c6_deserialize_behavior exEnv).2.2.2.2 "exmod".toList "rule1".toList exModule exRule1
     (by decide) rfl rfl⟩

/-- Counterexample to C6 as stated: the separator-free string `nodots` does
not fail with the malformed-reference error (the `ValueError` whose message
demands the `module.function` format — that branch is dead code); it fails
with the `TypeError` raised by indexing `globals()` with the split list. -/
theorem c6_counterexample :
    deserializeCallable exEnv (.str "nodots".toList) = .error .typeErrorUnhashableList ∧
    PyError.typeErrorUnhashableList ≠ PyError.valueError :=
  ⟨rfl, by decide⟩

/-! ## Claim C7 -/

/-- C7. For every predicate importable under its own qualified dotted name,
the callable obtained by deserializing the serialized symbolic reference is
the predicate itself, so it returns the same boolean on every metrics value
(boundary values included). -/
theorem c7_rule_roundtrip (env : RuleEnv) (f : PyCallable) (h : Resolvable env f) :
    ∃ s, serializeCallable env (.callable f) = .ok s ∧
      ∃ g, deserializeCallable env (.str s) = .ok g ∧
        ∀ m : MetricsVal, g.behavior m = f.behavior m :=
  ⟨ruleSymbolicName f, rfl, f, deserializeCallable_symbolicName h, fun _ => rfl⟩

/-- Witness for C7: `exmod.rule1` round trips through its symbolic reference
and agrees with itself on all metrics. -/
theorem c7_rule_roundtrip_witness :
    ∃ s, serializeCallable exEnv (.callable exRule1) = .ok s ∧
      ∃ g, deserializeCallable exEnv (.str s) = .ok g ∧
        ∀ m : MetricsVal, g.behavior m = exRule1.behavior m :=
  c7_rule_roundtrip exEnv exRule1 ⟨by decide, exModule, rfl, rfl⟩

/-! ## Claim C8 -/

theorem lookupKey_dictUpd {α : Type} (m : List (String × α)) (n k : String) (v : α) :
    lookupKey (dictUpd m n v) k = if n = k then some v else lookupKey m k := by
  unfold dictUpd lookupKey
  by_cases hmem : m.any (fun p => p.1 == n) = true
  · rw [if_pos hmem, List.find?_map]
    have hpred : ((fun p : String × α => p.1 == k)
        ∘ (fun p => if p.1 == n then (n, v) else p)) = fun p => p.1 == k := by
      funext p
      by_cases hp : p.1 = n
      · simp [Function.comp, hp]
      · simp [Function.comp, hp]
    rw [hpred]
    by_cases hnk : n = k
    · subst hnk
      have hsome : (m.find? (fun p => p.1 == n)).isSome := by
        rw [List.find?_isSome]
        obtain ⟨p, hp, hpk⟩ := List.any_eq_true.mp hmem
        exact ⟨p, hp, hpk⟩
      obtain ⟨q, hq⟩ := Option.isSome_iff_exists.mp hsome
      rw [hq]
      have hq1 : q.1 = n := by simpa using List.find?_some hq
      simp [hq1]
    · cases hfq : m.find? (fun p => p.1 == k) with
      | none => simp [hnk]
      | some q =>
        have hq1 : q.1 = k := by simpa using List.find?_some hfq
        have hqn : ¬ q.1 = n := fun he => hnk (he ▸ hq1)
        simp [hnk, hqn]
  · rw [if_neg hmem, List.find?_append]
    by_cases hnk : n = k
    · subst hnk
      have hnone : m.find? (fun p => p.1 == n) = none := by
        rw [List.find?_eq_none]
        intro p hp hpk
        exact hmem (List.any_eq_true.mpr ⟨p, hp, hpk⟩)
      simp [hnone, List.find?_singleton]
    · have hb : (((n, v) : String × α).1 == k) = false := by
        simp
        exact hnk
      simp [List.find?_singleton, hb, hnk]

theorem lookupKey_foldl (l : List StageVal) :
    ∀ (m : List (String × StageVal)) (k : String),
      lookupKey (l.foldl (fun m s => dictUpd m s.name s) m) k
        = (lastWithName l k).or (lookupKey m k) := by
  induction l with
  | nil =>
    intro m k
    simp [lastWithName]
  | cons s l ih =>
    intro m k
    show lookupKey (l.foldl (fun m s => dictUpd m s.name s) (dictUpd m s.name s)) k = _
    rw [ih, lookupKey_dictUpd]
    have hlast : lastWithName (s :: l) k
        = (lastWithName l k).or (if s.name == k then some s else none) := by
      unfold lastWithName
      rw [List.reverse_cons, List.find?_append, List.find?_singleton]
    rw [hlast, Option.or_assoc]
    congr 1
    by_cases hk : s.name = k
    · simp [hk]
    · simp [hk]

/-- C8. Constructing a Curriculum from an ordered stage list deduplicates into
the name-keyed mapping with python-dict semantics: the mapping's keys carry no
duplicates, looking a name up yields the last stage of the list carrying that
name (last-write-wins), and in particular a list of two stages both named `a`
yields the one-entry mapping holding the later stage. -/
theorem c8_last_write_wins (nm ds : String) (l : List StageVal) (k : String) :
    (((curriculumFromList nm ds l).stages).map Prod.fst).Nodup ∧
    lookupKey ((curriculumFromList nm ds l).stages) k = lastWithName l k ∧
    (curriculumFromList nm ds [exStageA1, exStageA2]).stages = [("a", exStageA2)] := by
  refine ⟨stagesDict_keys_nodup l, ?_, rfl⟩
  have h := lookupKey_foldl l [] k
  simpa [curriculumFromList, stagesDict, lookupKey, Option.or_none] using h

/-! ## Claim C9 -/

theorem pyPop_invalid {α : Type} (l : List α) (i : Int)
    (h : ¬ validPopIdx l.length i) : pyPop l i = .error .indexError := by
  unfold pyPop
  rw [dif_neg]
  intro hc
  apply h
  unfold validPopIdx
  by_cases hneg : i < 0
  · rw [if_pos hneg] at hc
    omega
  · rw [if_neg hneg] at hc
    omega

theorem pyPop_valid {α : Type} (l : List α) (i : Int)
    (h : validPopIdx l.length i) :
    ∃ hk : normPopIdx l.length i < l.length,
      pyPop l i = .ok (l.get ⟨normPopIdx l.length i, hk⟩,
        l.take (normPopIdx l.length i) ++ l.drop (normPopIdx l.length i + 1)) := by
  obtain ⟨h1, h2⟩ := h
  have hc : 0 ≤ (if i < 0 then i + l.length else i) ∧
      (if i < 0 then i + l.length else i) < (l.length : Int) := by
    by_cases hneg : i < 0
    · rw [if_pos hneg]
      omega
    · rw [if_neg hneg]
      omega
  have hk : normPopIdx l.length i < l.length := by
    unfold normPopIdx
    omega
  refine ⟨hk, ?_⟩
  unfold pyPop
  rw [dif_pos hc]
  rfl

/-- C9. `pop_transition(index)` fails with Python's index error exactly when
the index is not a valid position of the transition list (negative indices
counting from the end, as `list.pop` accepts); at a valid index it removes
and returns the transition at the normalized position, the remaining
transitions keeping their order (the original list is the remaining one with
the popped element reinserted at that position), and every other stage field
is unchanged. -/
theorem c9_pop_transition (s : StageVal) (i : Int) :
    (¬ validPopIdx s.stage_transitions.length i →
      popTransition s i = .error .indexError) ∧
    (validPopIdx s.stage_transitions.length i →
      ∃ t s2, popTransition s i = .ok (t, s2) ∧
        s.stage_transitions.get? (normPopIdx s.stage_transitions.length i) = some t ∧
        s2.stage_transitions.length + 1 = s.stage_transitions.length ∧
        s.stage_transitions
          = s2.stage_transitions.take (normPopIdx s.stage_transitions.length i)
            ++ t :: s2.stage_transitions.drop (normPopIdx s.stage_transitions.length i) ∧
        s2.name = s.name ∧ s2.task = s.task ∧ s2.metrics = s.metrics ∧
        s2.description = s.description) := by
  constructor
  · intro h
    unfold popTransition
    rw [pyPop_invalid s.stage_transitions i h]
  · intro h
    obtain ⟨hk, hp⟩ := pyPop_valid s.stage_transitions i h
    set l := s.stage_transitions with hl
    set k := normPopIdx l.length i with hdefk
    refine ⟨l.get ⟨k, hk⟩, { s with stage_transitions := l.take k ++ l.drop (k + 1) },
      ?_, ?_, ?_, ?_, rfl, rfl, rfl, rfl⟩
    · unfold popTransition
      rw [hp]
    · exact List.get?_eq_get hk
    · rw [List.length_append, List.length_take, List.length_drop]
      omega
    · have htake : (l.take k ++ l.drop (k + 1)).take k = l.take k := by
        apply List.take_left'
        rw [List.length_take]
        omega
      have hdrop : (l.take k ++ l.drop (k + 1)).drop k = l.drop (k + 1) := by
        apply List.drop_left'
        rw [List.length_take]
        omega
      rw [htake, hdrop, List.get_cons_drop, List.take_append_drop]

/-- Witness for C9: on the concrete two-transition stage, `pop_transition 5`
raises the index error, while `pop_transition (-1)` removes and returns the
last transition. -/
theorem c9_pop_transition_witness :
    popTransition exStageTwoTransitions 5 = .error .indexError ∧
    (∃ t s2, popTransition exStageTwoTransitions (-1) = .ok (t, s2) ∧
      exStageTwoTransitions.stage_transitions.get?
          (normPopIdx exStageTwoTransitions.stage_transitions.length (-1)) = some t ∧
      s2.stage_transitions.length + 1 = exStageTwoTransitions.stage_transitions.length ∧
      exStageTwoTransitions.stage_transitions
        = s2.stage_transitions.take
            (normPopIdx exStageTwoTransitions.stage_transitions.length (-1))
          ++ t :: s2.stage_transitions.drop
            (normPopIdx exStageTwoTransitions.stage_transitions.length (-1)) ∧
      s2.name = exStageTwoTransitions.name ∧ s2.task = exStageTwoTransitions.task ∧
      s2.metrics = exStageTwoTransitions.metrics ∧
      s2.description = exStageTwoTransitions.description) :=
  ⟨(c9_pop_transition exStageTwoTransitions 5).1 (fun h => absurd h.2 (by decide)),
   (c9_pop_transition exStageTwoTransitions (-1)).2 ⟨by decide, by decide⟩⟩

/-- Witness for C4: the dangling document's deserialization result keeps the
document's stage keys and the unresolved `ghost` target reference. -/
theorem c4_no_dangling_check_witness :
    exDanglingResult.stages.map Prod.fst = exDanglingDoc.stages.map Prod.fst ∧
    exDanglingResult.stages.map
        (fun p => (p.2 : StageVal).stage_transitions.map (fun t => t.target_stage))
      = exDanglingDoc.stages.map
          (fun p => (p.2 : StageDoc).stage_transitions.map (fun t => t.target_stage)) :=
  (c4_no_dangling_check exEnv exDanglingDoc).2 exDanglingResult rfl
